import Mathlib

/-!
# Verification of the stm32-airgap-poc host-side receiver

Shallow embedding of the PC-side receiver (`src/pc/receiver_test_harness.py`)
and of the counterpart simulator's frame encoder (`src/pc/serial_protocol.py`).

Bytes are modelled as `Nat` values below 256; a serial byte stream is a
`List Nat` holding every byte that will arrive before the transport times
out, so a `read n` that finds fewer than `n` bytes models a short read at
the timeout.  SHA-256 is implemented executably over byte lists so that
hash verdicts can be evaluated by the kernel.
-/

namespace AirGap

/-! ## 32-bit arithmetic helpers (machine ints as `Nat` mod 2^32) -/

/-- Truncate to a 32-bit word. -/
def w32 (n : Nat) : Nat := n % 4294967296

/-- Right rotation of a 32-bit word. -/
def rotr (x n : Nat) : Nat := w32 ((x >>> n) ||| (x <<< (32 - n)))

/-! ## SHA-256 (FIPS 180-4), executable over byte lists

The receiver calls `hashlib.sha256(ciphertext).hexdigest()`; this is the
same function, computed over `List Nat` bytes. -/

def bigSigma0 (x : Nat) : Nat := (rotr x 2) ^^^ (rotr x 13) ^^^ (rotr x 22)

def bigSigma1 (x : Nat) : Nat := (rotr x 6) ^^^ (rotr x 11) ^^^ (rotr x 25)

def smallSigma0 (x : Nat) : Nat := (rotr x 7) ^^^ (rotr x 18) ^^^ (x >>> 3)

def smallSigma1 (x : Nat) : Nat := (rotr x 17) ^^^ (rotr x 19) ^^^ (x >>> 10)

def ch (x y z : Nat) : Nat := (x &&& y) ^^^ ((x ^^^ 0xFFFFFFFF) &&& z)

def maj (x y z : Nat) : Nat := (x &&& y) ^^^ (x &&& z) ^^^ (y &&& z)

/-- The 64 SHA-256 round constants, as decimal `Nat` literals. -/
def K256 : List Nat :=
  [1116352408, 1899447441, 3049323471, 3921009573, 961987163, 1508970993,
   2453635748, 2870763221, 3624381080, 310598401, 607225278, 1426881987,
   1925078388, 2162078206, 2614888103, 3248222580, 3835390401, 4022224774,
   264347078, 604807628, 770255983, 1249150122, 1555081692, 1996064986,
   2554220882, 2821834349, 2952996808, 3210313671, 3336571891, 3584528711,
   113926993, 338241895, 666307205, 773529912, 1294757372, 1396182291,
   1695183700, 1986661051, 2177026350, 2456956037, 2730485921, 2820302411,
   3259730800, 3345764771, 3516065817, 3600352804, 4094571909, 275423344,
   430227734, 506948616, 659060556, 883997877, 958139571, 1322822218,
   1537002063, 1747873779, 1955562222, 2024104815, 2227730452, 2361852424,
   2428436474, 2756734187, 3204031479, 3329325298]

/-- The initial SHA-256 state, as decimal `Nat` literals. -/
def H0256 : List Nat :=
  [1779033703, 3144134277, 1013904242, 2773480762,
   1359893119, 2600822924, 528734635, 1541459225]

/-- Big-endian 4-byte encoding of a 32-bit value (Python `struct.pack ">I"`). -/
def packBE4 (n : Nat) : List Nat :=
  [n / 16777216 % 256, n / 65536 % 256, n / 256 % 256, n % 256]

/-- Big-endian 8-byte encoding of a 64-bit value. -/
def packBE8 (n : Nat) : List Nat :=
  [n / 72057594037927936 % 256, n / 281474976710656 % 256, n / 1099511627776 % 256,
   n / 4294967296 % 256, n / 16777216 % 256, n / 65536 % 256, n / 256 % 256, n % 256]

/-- SHA-256 padding: append 0x80, zeros to 56 mod 64, then the 64-bit bit length. -/
def sha256pad (msg : List Nat) : List Nat :=
  msg ++ 0x80 :: List.replicate ((119 - msg.length % 64) % 64) 0 ++ packBE8 (msg.length * 8)

/-- Group a byte list into big-endian 32-bit words. -/
def toWords : List Nat → List Nat
  | a :: b :: c :: d :: rest => (((a * 256 + b) * 256 + c) * 256 + d) :: toWords rest
  | _ => []

/-- One extension step of the SHA-256 message schedule. -/
def scheduleStep (w : List Nat) : List Nat :=
  let t := w.length
  w ++ [w32 (smallSigma1 (w.getD (t - 2) 0) + w.getD (t - 7) 0 +
             smallSigma0 (w.getD (t - 15) 0) + w.getD (t - 16) 0)]

/-- Extend the 16 block words to the 64-entry message schedule. -/
def extendSchedule (w : List Nat) : List Nat :=
  (List.range 48).foldl (fun acc _ => scheduleStep acc) w

/-- One SHA-256 compression round on state `[a,b,c,d,e,f,g,h]`. -/
def compressStep (s : List Nat) (kw : Nat × Nat) : List Nat :=
  match s with
  | [a, b, c, d, e, f, g, h] =>
    let t1 := w32 (h + bigSigma1 e + ch e f g + kw.1 + kw.2)
    let t2 := w32 (bigSigma0 a + maj a b c)
    [w32 (t1 + t2), a, b, c, w32 (d + t1), e, f, g]
  | s => s

/-- Process one 64-byte block into the running hash state. -/
def processBlock (hs : List Nat) (block : List Nat) : List Nat :=
  let w := extendSchedule (toWords block)
  let s := (K256.zip w).foldl compressStep hs
  (hs.zip s).map (fun p => w32 (p.1 + p.2))

/-- Split a byte list into 64-byte chunks (structural recursion on a fuel
bound so the kernel can evaluate it; each step consumes at least one byte,
so fuel equal to the length is always enough). -/
def toChunksAux : Nat → List Nat → List (List Nat)
  | 0, _ => []
  | _, [] => []
  | fuel + 1, a :: rest => (a :: rest).take 64 :: toChunksAux fuel ((a :: rest).drop 64)

/-- Split a byte list into 64-byte chunks. -/
def toChunks (l : List Nat) : List (List Nat) := toChunksAux l.length l

/-- SHA-256 digest (32 bytes) of a byte list. -/
def sha256 (msg : List Nat) : List Nat :=
  (((toChunks (sha256pad msg)).foldl processBlock H0256).map packBE4).flatten

/-- A lowercase hex digit. -/
def hexChar (n : Nat) : Char :=
  if n < 10 then Char.ofNat (48 + n) else Char.ofNat (87 + n)

/-- Lowercase hex encoding of a byte list. -/
def bytesToHex (l : List Nat) : String :=
  String.mk ((l.map (fun b => [hexChar (b / 16), hexChar (b % 16)])).flatten)

/-- Python `hashlib.sha256(msg).hexdigest()`: lowercase hex SHA-256 digest. -/
def hexdigest (msg : List Nat) : String := bytesToHex (sha256 msg)

end AirGap

namespace AirGap

/-! ## Frame codec (src/pc/receiver_test_harness.py `read_frame`,
src/pc/serial_protocol.py `send_frame`)

`ser.read n` on stream `s` returns `s.take n` and leaves `s.drop n`: the
list holds every byte arriving before the timeout, so a short list models
a timeout mid-read. -/

/-- The 0xAA start-of-frame marker. -/
def START_MARK : Nat := 0xAA

/-- The 0x55 end-of-frame marker. -/
def END_MARK : Nat := 0x55

/-- Python `struct.unpack(">I", hdr)[0]` for a 4-byte header. -/
def unpackBE4 : List Nat → Nat
  | [a, b, c, d] => ((a * 256 + b) * 256 + c) * 256 + d
  | _ => 0

/-- Result of one `read_frame` call: the returned value (`none` models
Python `None`), whether the bad-tail warning was printed, and the bytes
left on the serial stream. -/
structure FrameResult where
  frame : Option (List Nat)
  warnBadTail : Bool
  rest : List Nat
deriving DecidableEq, Repr

/-- Embeds `read_frame(ser)`: read 1 marker byte (no byte or not 0xAA gives
`None`); read a 4-byte big-endian length (short read gives `None`); read
`length` payload bytes; read 1 tail byte, warning if it is missing or not
0x55; return the payload. -/
def read_frame (s : List Nat) : FrameResult :=
  match s with
  | [] => ⟨none, false, []⟩
  | b :: s1 =>
    if b = START_MARK then
      if (s1.take 4).length = 4 then
        let len := unpackBE4 (s1.take 4)
        let s2 := s1.drop 4
        let s3 := s2.drop len
        ⟨some (s2.take len), decide (s3.take 1 ≠ [END_MARK]), s3.drop 1⟩
      else ⟨none, false, s1.drop 4⟩
    else ⟨none, false, s1⟩

/-- Embeds `send_frame(ser, data)`: start marker, `struct.pack(">I", len(data))`,
payload, end marker.  `struct.pack(">I", n)` raises for `n ≥ 2^32`, so the
encoder is partial. -/
def send_frame (data : List Nat) : Option (List Nat) :=
  if data.length < 4294967296 then
    some (START_MARK :: (packBE4 data.length ++ (data ++ [END_MARK])))
  else none

/-! ## Receiver state machine (src/pc/receiver_test_harness.py `main`) -/

/-- The inner `while True` frame loop of the `CHUNK_START` branch:
`frame = read_frame(ser); if frame: ciphertext += frame; else: break`.
Python truthiness makes both `None` and an empty payload end the loop.
Structural recursion on fuel; each continuing iteration consumes at least
one stream byte, so fuel `s.length + 1` never runs out first. -/
def framesLoopAux : Nat → List Nat → List Nat → List Nat
  | 0, buf, _ => buf
  | fuel + 1, buf, s =>
    let r := read_frame s
    match r.frame with
    | some data => if data.isEmpty then buf else framesLoopAux fuel (buf ++ data) r.rest
    | none => buf

/-- Accumulate decoded frame payloads into the session buffer until
`read_frame` yields `None` or an empty payload. -/
def readFrames (buf s : List Nat) : List Nat := framesLoopAux (s.length + 1) buf s

/-- One control line read by `ser.readline()` in the main loop, already
classified by the `startswith` dispatch in `main`; `chunkStart` carries
the bytes that arrive on the serial port while the nested frame loop
runs; `hashLine` carries `line.split("HASH:")[1].strip()`. -/
inductive Line where
  | usbInserted
  | chunkStart (stream : List Nat)
  | hashLine (h : String)
  | relayCutAck
  | relayAllowAck
  | statusComplete
  | errorLine
  | other
deriving DecidableEq

/-- The mutable state of `main`: the session buffer `ciphertext`, the
capture counter `file_counter`, the announced hash, plus the observable
outputs — commands written back over serial and capture files written to
disk (keyed by the counter used in `received_{n}.bin`). -/
structure RxState where
  ciphertext : List Nat
  file_counter : Nat
  current_hash_expected : Option String
  commands : List String
  captures : List (Nat × List Nat)
deriving DecidableEq, Repr

/-- Processing of one classified control line by the body of the main
`while True` loop of `main`. -/
def step (st : RxState) (ln : Line) : RxState :=
  match ln with
  | .usbInserted => { st with ciphertext := [], current_hash_expected := none }
  | .chunkStart stream => { st with ciphertext := readFrames st.ciphertext stream }
  | .hashLine h =>
    let computed := hexdigest st.ciphertext
    { st with
      current_hash_expected := some h
      commands := st.commands ++ [if computed ≠ h then "CUT\n" else "ALLOW\n"]
      file_counter := st.file_counter + 1
      captures := st.captures ++ [(st.file_counter + 1, st.ciphertext)]
      ciphertext := [] }
  | _ => st

/-- The state of `main` right after the serial port is opened. -/
def initState : RxState := ⟨[], 0, none, [], []⟩

/-- Run the main loop over a list of classified control lines. -/
def run (st : RxState) (lns : List Line) : RxState := lns.foldl step st

/-- Lowercasing of one ASCII character (used only by the spec-side
case-insensitive comparison below). -/
def lowerChar (c : Char) : Char :=
  if 65 ≤ c.toNat ∧ c.toNat ≤ 90 then Char.ofNat (c.toNat + 32) else c

/-- Spec-side definition, for the hash-gate claim only: case-insensitive
equality of hex strings ("compares, case-insensitively on hex encoding"). -/
def hexEqCI (a b : String) : Bool := a.data.map lowerChar == b.data.map lowerChar

end AirGap

namespace AirGap

/-- Test whether a classified line is a hash announcement. -/
def isHashLine : Line → Bool
  | .hashLine _ => true
  | _ => false

/-- Test whether a classified line is the chunk-begin line. -/
def isChunkStart : Line → Bool
  | .chunkStart _ => true
  | _ => false

/-- Scenario A of the spec: insertion event, chunk-begin carrying one
frame of 16 zero bytes, announcement of the correct hash. -/
def traceA : List Line :=
  [Line.usbInserted,
   Line.chunkStart ((send_frame (List.replicate 16 0)).getD []),
   Line.hashLine "374708fff7719dd5979ec875d56cd2286f6d3cf7ec317a3b25632aab28ec37bb"]

/-- Scenario B of the spec: identical to Scenario A but with the first
hex character of the announced hash flipped. -/
def traceB : List Line :=
  [Line.usbInserted,
   Line.chunkStart ((send_frame (List.replicate 16 0)).getD []),
   Line.hashLine "474708fff7719dd5979ec875d56cd2286f6d3cf7ec317a3b25632aab28ec37bb"]

/-! ## Helper lemmas -/

theorem packBE4_length (n : Nat) : (packBE4 n).length = 4 := rfl

theorem unpackBE4_packBE4 (n : Nat) (h : n < 4294967296) :
    unpackBE4 (packBE4 n) = n := by
  simp only [packBE4, unpackBE4]
  omega

/-- Decoding a well-formed marker + header + full payload prefix. -/
theorem read_frame_gen (a b c d : Nat) (data rest : List Nat)
    (hd : data.length = unpackBE4 [a, b, c, d]) :
    read_frame (START_MARK :: a :: b :: c :: d :: (data ++ rest)) =
      ⟨some data, decide (rest.take 1 ≠ [END_MARK]), rest.drop 1⟩ := by
  simp only [read_frame, if_pos rfl, List.take_succ_cons, List.take_zero, List.drop_succ_cons,
    List.drop_zero, List.length_cons, List.length_nil]
  rw [if_pos trivial, if_pos trivial]
  simp only [List.take_left' hd, List.drop_left' hd]

/-- Decoding a stream that starts with a complete encoded frame body. -/
theorem read_frame_exact (n : Nat) (hn : n < 4294967296) (data rest : List Nat)
    (hd : data.length = n) :
    read_frame (START_MARK :: (packBE4 n ++ (data ++ rest))) =
      ⟨some data, decide (rest.take 1 ≠ [END_MARK]), rest.drop 1⟩ := by
  have h4 : packBE4 n = [n / 16777216 % 256, n / 65536 % 256, n / 256 % 256, n % 256] := rfl
  rw [h4]
  exact read_frame_gen _ _ _ _ data rest
    (by rw [← h4, unpackBE4_packBE4 n hn]; exact hd)

/-- With no fuel left or an exhausted stream the frame loop returns. -/
theorem framesLoopAux_nil (fuel : Nat) (buf : List Nat) :
    framesLoopAux fuel buf [] = buf := by
  cases fuel <;> simp [framesLoopAux, read_frame]

/-- One iteration of the frame loop on a nonempty decoded payload. -/
theorem framesLoopAux_step (fuel : Nat) (buf s d : List Nat) (w : Bool) (r : List Nat)
    (h : read_frame s = ⟨some d, w, r⟩) (hd : d ≠ []) :
    framesLoopAux (fuel + 1) buf s = framesLoopAux fuel (buf ++ d) r := by
  simp [framesLoopAux, h, hd]

end AirGap

namespace AirGap

/-- C2: round-trip — decoding the byte sequence produced by the peer-side
frame encoder (start marker 0xAA, 4-byte big-endian length, payload, end
marker 0x55) with the receiver's frame decoder yields exactly the original
payload; the whole frame is consumed and no tail warning is raised. -/
theorem roundtrip_decode_encode (p enc : List Nat) (h : send_frame p = some enc) :
    read_frame enc = ⟨some p, false, []⟩ := by
  unfold send_frame at h
  by_cases hl : p.length < 4294967296
  · rw [if_pos hl] at h
    cases h
    have := read_frame_exact p.length hl p [END_MARK] rfl
    simpa using this
  · rw [if_neg hl] at h
    exact absurd h (by simp)

/-- C2 witness: the concrete payload [1, 2, 3] encodes to the 9-byte frame
and decodes back to itself. -/
theorem roundtrip_decode_encode_witness :
    send_frame [1, 2, 3] = some [0xAA, 0, 0, 0, 3, 1, 2, 3, 0x55] ∧
    read_frame [0xAA, 0, 0, 0, 3, 1, 2, 3, 0x55] = ⟨some [1, 2, 3], false, []⟩ :=
  ⟨by decide, roundtrip_decode_encode [1, 2, 3] _ (by decide)⟩

/-- C3 counterexample: a frame declaring length 5 of which only 2 payload
bytes arrive before the timeout is returned with a 2-byte payload, so the
decoded payload length differs from the declared length field. -/
theorem frame_declared_length_cex :
    (read_frame [0xAA, 0, 0, 0, 5, 1, 2]).frame = some [1, 2] ∧
    unpackBE4 (([0xAA, 0, 0, 0, 5, 1, 2].drop 1).take 4) = 5 ∧
    ([1, 2] : List Nat).length ≠ 5 := by decide

/-- C3 amended: every decoded frame's payload length is the minimum of the
declared length field and the number of bytes delivered after the header —
`ser.read(length)` silently truncates at the timeout, so the payload equals
the declared length only when the transport delivers enough bytes. -/
theorem frame_payload_length (s d : List Nat) (w : Bool) (r : List Nat)
    (h : read_frame s = ⟨some d, w, r⟩) :
    d.length = min (unpackBE4 ((s.drop 1).take 4)) (s.length - 5) := by
  match s with
  | [] => simp [read_frame] at h
  | b :: s1 =>
    simp only [read_frame] at h
    by_cases hb : b = START_MARK
    · rw [if_pos hb] at h
      by_cases h4 : (s1.take 4).length = 4
      · rw [if_pos h4] at h
        simp only [FrameResult.mk.injEq, Option.some.injEq] at h
        obtain ⟨hd, -, -⟩ := h
        subst hd
        simp only [List.length_take, List.length_drop, List.drop_succ_cons, List.drop_zero,
          List.length_cons]
        omega
      · rw [if_neg h4] at h
        simp at h
    · rw [if_neg hb] at h
      simp at h

/-- C3 amended witness: at the truncated stream of the counterexample the
payload length is exactly the minimum (2 of declared 5). -/
theorem frame_payload_length_witness :
    read_frame [0xAA, 0, 0, 0, 5, 1, 2] = ⟨some [1, 2], true, []⟩ ∧
    ([1, 2] : List Nat).length =
      min (unpackBE4 (([0xAA, 0, 0, 0, 5, 1, 2].drop 1).take 4))
        ([0xAA, 0, 0, 0, 5, 1, 2].length - 5) :=
  ⟨by decide, frame_payload_length _ [1, 2] true [] (by decide)⟩

/-- C8: tail-marker leniency — a frame whose tail byte differs from 0x55,
or whose tail byte never arrives, is decoded with only the warning flag
set: the payload is still returned, and the chunk-begin handler still
appends it to the session buffer (so the later hash is computed over it). -/
theorem tail_marker_leniency (p : List Nat) (hp : p ≠ []) (hlen : p.length < 4294967296)
    (t : Nat) (ht : t ≠ END_MARK) (rest : List Nat) (st : RxState) :
    read_frame (START_MARK :: (packBE4 p.length ++ (p ++ t :: rest))) = ⟨some p, true, rest⟩ ∧
    read_frame (START_MARK :: (packBE4 p.length ++ p)) = ⟨some p, true, []⟩ ∧
    (step st (Line.chunkStart (START_MARK :: (packBE4 p.length ++ p)))).ciphertext =
      st.ciphertext ++ p := by
  have h2 : read_frame (START_MARK :: (packBE4 p.length ++ p)) = ⟨some p, true, []⟩ := by
    have := read_frame_exact p.length hlen p [] rfl
    simpa using this
  refine ⟨?_, h2, ?_⟩
  · have h1 := read_frame_exact p.length hlen p (t :: rest) rfl
    simpa [ht] using h1
  · have hs : (START_MARK :: (packBE4 p.length ++ p)).length = p.length + 4 + 1 := by
      simp [packBE4]
    simp only [step]
    unfold readFrames
    rw [hs, framesLoopAux_step _ _ _ _ _ _ h2 hp, framesLoopAux_nil]

/-- C8 witness: the 1-byte payload [1] with missing tail (and, for the
first conjunct, wrong tail byte 0) is still decoded and appended. -/
theorem tail_marker_leniency_witness :
    ([1] : List Nat) ≠ [] ∧ ([1] : List Nat).length < 4294967296 ∧ (0 : Nat) ≠ END_MARK ∧
    read_frame [0xAA, 0, 0, 0, 1, 1, 0, 9] = ⟨some [1], true, [9]⟩ ∧
    read_frame [0xAA, 0, 0, 0, 1, 1] = ⟨some [1], true, []⟩ ∧
    (step initState (Line.chunkStart [0xAA, 0, 0, 0, 1, 1])).ciphertext =
      initState.ciphertext ++ [1] :=
  ⟨by decide, by decide, by decide,
   (tail_marker_leniency [1] (by decide) (by decide) 0 (by decide) [9] initState).1,
   (tail_marker_leniency [1] (by decide) (by decide) 0 (by decide) [9] initState).2.1,
   (tail_marker_leniency [1] (by decide) (by decide) 0 (by decide) [9] initState).2.2⟩

/-- C9: truncated-frame safety — for a frame declaring length n of which
fewer than n payload bytes are delivered before the timeout, the decoder
returns the defined truncated result (the delivered bytes, with the
bad-tail warning) and consumes only what arrived: no crash, no
out-of-bounds read. -/
theorem truncated_frame_defined (n : Nat) (hn : n < 4294967296) (data : List Nat)
    (hshort : data.length < n) :
    read_frame (START_MARK :: (packBE4 n ++ data)) = ⟨some data, true, []⟩ := by
  have h4 : packBE4 n = [n / 16777216 % 256, n / 65536 % 256, n / 256 % 256, n % 256] := rfl
  rw [h4]
  simp only [List.cons_append, List.nil_append, read_frame, List.take_succ_cons, List.take_zero,
    List.drop_succ_cons, List.drop_zero, List.length_cons, List.length_nil]
  rw [if_pos trivial, if_pos trivial]
  have hu : unpackBE4 [n / 16777216 % 256, n / 65536 % 256, n / 256 % 256, n % 256] = n :=
    unpackBE4_packBE4 n hn
  simp only [hu, List.take_of_length_le (Nat.le_of_lt hshort),
    List.drop_of_length_le (Nat.le_of_lt hshort)]
  simp

/-- C9 witness: declared length 5, only 2 bytes delivered. -/
theorem truncated_frame_defined_witness :
    (5 : Nat) < 4294967296 ∧ ([1, 2] : List Nat).length < 5 ∧
    read_frame [0xAA, 0, 0, 0, 5, 1, 2] = ⟨some [1, 2], true, []⟩ :=
  ⟨by decide, by decide, truncated_frame_defined 5 (by decide) [1, 2] (by decide)⟩

end AirGap

namespace AirGap

theorem run_nil (st : RxState) : run st [] = st := rfl

theorem run_cons (st : RxState) (ln : Line) (lns : List Line) :
    run st (ln :: lns) = run (step st ln) lns := rfl

/-- Digest of the empty byte string. -/
theorem hexdigest_nil :
    hexdigest [] = "e3b0c44298fc1c149afbf4c8996fb92427ae41e4649b934ca495991b7852b855" := by
  decide

/-- Buffer emptiness is preserved by every line other than chunk-begin. -/
theorem empty_buffer_stable (st : RxState) (hb : st.ciphertext = []) (lns : List Line)
    (h : ∀ ln ∈ lns, isChunkStart ln = false) :
    (run st lns).ciphertext = [] := by
  induction lns generalizing st with
  | nil => simpa [run] using hb
  | cons ln rest ih =>
    rw [run_cons]
    refine ih (step st ln) ?_ (fun l hl => h l (List.mem_cons_of_mem _ hl))
    cases ln <;> simp_all [step, isChunkStart]

/-- From a state whose capture keys are exactly 1..file_counter, every run
keeps the capture keys exactly 1..file_counter. -/
theorem capture_keys_run (st : RxState)
    (hinv : st.captures.map Prod.fst = List.range' 1 st.file_counter) (lns : List Line) :
    (run st lns).captures.map Prod.fst = List.range' 1 (run st lns).file_counter := by
  induction lns generalizing st with
  | nil => simpa [run] using hinv
  | cons ln rest ih =>
    rw [run_cons]
    refine ih (step st ln) ?_
    cases ln <;> simp [step, hinv, List.range'_concat, Nat.add_comm]

/-- C1 counterexample: with an empty session buffer, an uppercase
announcement of the correct digest is case-insensitively equal to the
computed lowercase digest, yet the receiver answers CUT — the comparison
performed by the code is exact string equality, not case-insensitive. -/
theorem hash_gate_ci_cex :
    hexEqCI (hexdigest initState.ciphertext)
      "E3B0C44298FC1C149AFBF4C8996FB92427AE41E4649B934CA495991B7852B855" = true ∧
    (step initState (Line.hashLine
      "E3B0C44298FC1C149AFBF4C8996FB92427AE41E4649B934CA495991B7852B855")).commands
      = ["CUT\n"] := by
  constructor
  · decide
  · decide

/-- C1 amended: the receiver emits ALLOW iff the announced string equals
the lowercase hex digest of the session buffer exactly (case-sensitive
string equality), and CUT otherwise; a differently-cased encoding of the
correct digest is treated as a mismatch. -/
theorem hash_gate_exact (st : RxState) (hstr : String) :
    ((step st (Line.hashLine hstr)).commands = st.commands ++ ["ALLOW\n"] ↔
      hexdigest st.ciphertext = hstr) ∧
    ((step st (Line.hashLine hstr)).commands = st.commands ++ ["CUT\n"] ↔
      hexdigest st.ciphertext ≠ hstr) := by
  by_cases hc : hexdigest st.ciphertext = hstr <;> simp [step, hc]

/-- C4 counterexample: one insertion followed by two hash-announcement
lines with no intervening insertion event yields two dispatched commands
and two captures — the second dispatch is neither rejected nor suppressed. -/
theorem second_dispatch_cex :
    (run initState [Line.usbInserted, Line.hashLine "x", Line.hashLine "x"]).commands
      = ["CUT\n", "CUT\n"] ∧
    (run initState [Line.usbInserted, Line.hashLine "x", Line.hashLine "x"]).captures
      = [(1, []), (2, [])] := by
  constructor
  · decide
  · decide

/-- C4 amended: dispatch is keyed to hash-announcement lines, not to
sessions — the receiver emits exactly one command and writes exactly one
capture per hash line processed, so a second hash line for the same
session dispatches again (over the freshly cleared buffer) instead of
being rejected or logged as an invariant breach. -/
theorem dispatch_per_hash_line (st : RxState) (lns : List Line) :
    (run st lns).commands.length = st.commands.length + lns.countP isHashLine ∧
    (run st lns).captures.length = st.captures.length + lns.countP isHashLine := by
  induction lns generalizing st with
  | nil => simp [run]
  | cons ln rest ih =>
    rw [run_cons, List.countP_cons]
    obtain ⟨h1, h2⟩ := ih (step st ln)
    cases ln <;> simp [step, isHashLine] at h1 h2 ⊢ <;> omega

/-- C5: after any verdict the session buffer is empty, and it remains
empty across every subsequent line until the next chunk-begin line is
processed. -/
theorem session_isolation (st : RxState) (hstr : String) (lns : List Line)
    (h : ∀ ln ∈ lns, isChunkStart ln = false) :
    (step st (Line.hashLine hstr)).ciphertext = [] ∧
    (run (step st (Line.hashLine hstr)) lns).ciphertext = [] :=
  ⟨rfl, empty_buffer_stable _ rfl lns h⟩

/-- C5 witness: a verdict followed by an insertion event and an ignored
line, none of which is a chunk-begin line. -/
theorem session_isolation_witness :
    (∀ ln ∈ [Line.usbInserted, Line.other], isChunkStart ln = false) ∧
    ((step initState (Line.hashLine "x")).ciphertext = [] ∧
     (run (step initState (Line.hashLine "x")) [Line.usbInserted, Line.other]).ciphertext
       = []) :=
  ⟨by decide, session_isolation initState "x" [Line.usbInserted, Line.other] (by decide)⟩

/-- C6: an insertion event clears the session buffer, emits no command,
and erases every influence of the discarded bytes: the command history of
any continuation is identical to what it would be had the abandoned
buffer held any other content, so no verdict is ever emitted over the
discarded session's accumulated bytes. -/
theorem insertion_abandonment (st : RxState) (lns : List Line) (b : List Nat) :
    (step st Line.usbInserted).ciphertext = [] ∧
    (step st Line.usbInserted).commands = st.commands ∧
    (run st (Line.usbInserted :: lns)).commands =
      (run { st with ciphertext := b } (Line.usbInserted :: lns)).commands :=
  ⟨rfl, rfl, rfl⟩

/-- C7: every hash-announcement line persists the current buffer as a new
capture keyed by the incremented counter, regardless of the verdict; from
the initial state the capture keys are exactly 1, 2, 3, … (strictly
increasing); in Scenario A (correct hash, ALLOW) and Scenario B (one hex
character flipped, CUT) the one capture holds exactly the 16 transferred
zero bytes. -/
theorem capture_persistence :
    (∀ (st : RxState) (hstr : String),
        (step st (Line.hashLine hstr)).captures =
          st.captures ++ [(st.file_counter + 1, st.ciphertext)]) ∧
    (∀ lns : List Line,
        (run initState lns).captures.map Prod.fst =
          List.range' 1 (run initState lns).file_counter) ∧
    (run initState traceA).commands = ["ALLOW\n"] ∧
    (run initState traceA).captures = [(1, List.replicate 16 0)] ∧
    (run initState traceB).commands = ["CUT\n"] ∧
    (run initState traceB).captures = [(1, List.replicate 16 0)] := by
  refine ⟨fun st hstr => rfl, fun lns => capture_keys_run initState rfl lns, ?_, ?_, ?_, ?_⟩
  · decide
  · decide
  · decide
  · decide

/-- C10: a hash announcement arriving while the session buffer is empty
still produces a verdict and a capture: ALLOW iff the announced value
equals the SHA-256 hex digest of the empty byte string, CUT otherwise,
plus an empty capture file under the next counter value. -/
theorem empty_session_verdict (st : RxState) (hstr : String) (hb : st.ciphertext = []) :
    (step st (Line.hashLine hstr)).commands =
      st.commands ++
        [if hstr = "e3b0c44298fc1c149afbf4c8996fb92427ae41e4649b934ca495991b7852b855"
          then "ALLOW\n" else "CUT\n"] ∧
    (step st (Line.hashLine hstr)).captures = st.captures ++ [(st.file_counter + 1, [])] := by
  constructor
  · simp only [step, hb, hexdigest_nil]
    by_cases hh :
        hstr = "e3b0c44298fc1c149afbf4c8996fb92427ae41e4649b934ca495991b7852b855"
    · simp [hh]
    · simp [hh, Ne.symm hh]
  · simp [step, hb]

/-- C10 witness: announcing "abc" on the pristine initial state (empty
buffer) yields a CUT verdict and the empty capture numbered 1. -/
theorem empty_session_verdict_witness :
    initState.ciphertext = [] ∧
    ((step initState (Line.hashLine "abc")).commands =
        initState.commands ++
          [if "abc" = "e3b0c44298fc1c149afbf4c8996fb92427ae41e4649b934ca495991b7852b855"
            then "ALLOW\n" else "CUT\n"] ∧
     (step initState (Line.hashLine "abc")).captures =
        initState.captures ++ [(initState.file_counter + 1, [])]) :=
  ⟨rfl, empty_session_verdict initState "abc" rfl⟩

end AirGap
